import Mathlib

/-!
# Verification of the gdrive MCP server core (src/index.ts)

A shallow embedding of the Document Access Gateway and Request Router of the
gdrive MCP server: the query-escaping and filter construction of the
`gdrive_search` tool, the `readFileContent` gateway (export path for
Workspace-native MIME types, raw-download path with UTF-8 / base64 encoding),
and the call-tool router with its error envelope.

The remote Drive API is modelled as an oracle (`Drive`): a map from file ids
to file data (metadata MIME type, raw media bytes, export results) plus a
listing function. Bytes are `Nat` values below 256.
-/

set_option autoImplicit false
set_option maxRecDepth 8192

namespace GDrive

instance exceptDecEq {ε α : Type} [DecidableEq ε] [DecidableEq α] :
    DecidableEq (Except ε α) := fun a b =>
  match a, b with
  | .ok x, .ok y =>
    if h : x = y then .isTrue (by rw [h]) else .isFalse (fun hc => h (Except.ok.inj hc))
  | .error x, .error y =>
    if h : x = y then .isTrue (by rw [h]) else .isFalse (fun hc => h (Except.error.inj hc))
  | .ok _, .error _ => .isFalse (fun hc => Except.noConfusion hc)
  | .error _, .ok _ => .isFalse (fun hc => Except.noConfusion hc)

/-! ### Character constants

The single-quote and backslash characters, written via code points so that the
definitions below stay readable. -/

def squote : Char := Char.ofNat 39

def bslash : Char := Char.ofNat 92

/-! ### Query escaping (src/index.ts line 177)

`userQuery.replace(/\\/g, "\\\\").replace(/'/g, "\\'")`: first every backslash
is doubled, then every single quote is replaced by backslash-quote. Each
`replace` is a per-character expansion, modelled by `escapeList`. -/

def escBackslash (c : Char) : List Char :=
  if c = bslash then [bslash, bslash] else [c]

def escQuote (c : Char) : List Char :=
  if c = squote then [bslash, squote] else [c]

def escapeList (f : Char → List Char) : List Char → List Char
  | [] => []
  | c :: rest => f c ++ escapeList f rest

def escapedQuery (userQuery : String) : String :=
  String.mk (escapeList escQuote (escapeList escBackslash userQuery.toList))

/-- src/index.ts line 178: the filter clause sent to `drive.files.list`. -/
def formattedQuery (userQuery : String) : String :=
  "fullText contains \x27" ++ escapedQuery userQuery ++ "\x27"

/-! ### Scanner for the remote query language's quoted strings

In the Drive query language a quoted string ends at the first unescaped
single quote; a backslash escapes the character after it.
`hasUnescapedQuote l` is true iff scanning `l` from the left hits an
unescaped quote, i.e. iff `l`, when embedded between quotes, would terminate
the quoted string early. -/

def hasUnescapedQuote : List Char → Bool
  | [] => false
  | c :: rest =>
    if c = bslash then
      match rest with
      | [] => false
      | _ :: rest2 => hasUnescapedQuote rest2
    else if c = squote then true
    else hasUnescapedQuote rest

/-! ### Base64 (model of `Buffer.toString("base64")`) -/

def pad : Char := Char.ofNat 61

def b64Char (n : Nat) : Char :=
  if n < 26 then Char.ofNat (65 + n)
  else if n < 52 then Char.ofNat (97 + (n - 26))
  else if n < 62 then Char.ofNat (48 + (n - 52))
  else if n = 62 then Char.ofNat 43
  else Char.ofNat 47

def b64Val (c : Char) : Nat :=
  if 65 ≤ c.toNat ∧ c.toNat ≤ 90 then c.toNat - 65
  else if 97 ≤ c.toNat ∧ c.toNat ≤ 122 then c.toNat - 97 + 26
  else if 48 ≤ c.toNat ∧ c.toNat ≤ 57 then c.toNat - 48 + 52
  else if c.toNat = 43 then 62
  else if c.toNat = 47 then 63
  else 0

def base64EncodeList : List Nat → List Char
  | [] => []
  | [a] => [b64Char (a / 4), b64Char (a % 4 * 16), pad, pad]
  | [a, b] => [b64Char (a / 4), b64Char (a % 4 * 16 + b / 16), b64Char (b % 16 * 4), pad]
  | a :: b :: c :: rest =>
    b64Char (a / 4) :: b64Char (a % 4 * 16 + b / 16) ::
    b64Char (b % 16 * 4 + c / 64) :: b64Char (c % 64) :: base64EncodeList rest

def base64Encode (bs : List Nat) : String :=
  String.mk (base64EncodeList bs)

def base64DecodeList : List Char → List Nat
  | c1 :: c2 :: c3 :: c4 :: rest =>
    if c3 = pad then [b64Val c1 * 4 + b64Val c2 / 16]
    else if c4 = pad then
      [b64Val c1 * 4 + b64Val c2 / 16, b64Val c2 % 16 * 16 + b64Val c3 / 4]
    else
      (b64Val c1 * 4 + b64Val c2 / 16) ::
      (b64Val c2 % 16 * 16 + b64Val c3 / 4) ::
      (b64Val c3 % 4 * 64 + b64Val c4) :: base64DecodeList rest
  | _ => []

def base64Decode (s : String) : List Nat :=
  base64DecodeList s.toList

/-! ### UTF-8 decoding (model of `Buffer.toString("utf-8")`)

Standard UTF-8 with a replacement character for invalid sequences. No theorem
below depends on its internals; it is here so the raw-download text path is
executable. -/

def replChar : Char := Char.ofNat 0xFFFD

def isCont (b : Nat) : Bool := 0x80 ≤ b && b ≤ 0xBF

def utf8DecodeAux : Nat → List Nat → List Char
  | 0, _ => []
  | _, [] => []
  | fuel + 1, b :: rest =>
    if b < 0x80 then Char.ofNat b :: utf8DecodeAux fuel rest
    else if 0xC2 ≤ b && b ≤ 0xDF then
      match rest with
      | b2 :: rest2 =>
        if isCont b2 then
          Char.ofNat ((b - 0xC0) * 0x40 + (b2 - 0x80)) :: utf8DecodeAux fuel rest2
        else replChar :: utf8DecodeAux fuel rest
      | [] => [replChar]
    else if 0xE0 ≤ b && b ≤ 0xEF then
      match rest with
      | b2 :: b3 :: rest3 =>
        if isCont b2 && isCont b3 then
          Char.ofNat ((b - 0xE0) * 0x1000 + (b2 - 0x80) * 0x40 + (b3 - 0x80)) ::
            utf8DecodeAux fuel rest3
        else replChar :: utf8DecodeAux fuel rest
      | _ => [replChar]
    else if 0xF0 ≤ b && b ≤ 0xF4 then
      match rest with
      | b2 :: b3 :: b4 :: rest4 =>
        if isCont b2 && isCont b3 && isCont b4 then
          Char.ofNat ((b - 0xF0) * 0x40000 + (b2 - 0x80) * 0x1000 +
              (b3 - 0x80) * 0x40 + (b4 - 0x80)) :: utf8DecodeAux fuel rest4
        else replChar :: utf8DecodeAux fuel rest
      | _ => [replChar]
    else replChar :: utf8DecodeAux fuel rest

def utf8Decode (bs : List Nat) : String :=
  String.mk (utf8DecodeAux bs.length bs)

/-! ### String prefix / substring tests

Executable models of `String.startsWith` (used by `readFileContent`) and of
the remote `contains` operator, via character lists. -/

def listStartsWith : List Char → List Char → Bool
  | _, [] => true
  | [], _ :: _ => false
  | a :: as, b :: bs => a = b && listStartsWith as bs

def listContainsSub : List Char → List Char → Bool
  | [], needle => needle.isEmpty
  | hay@(_ :: rest), needle => listStartsWith hay needle || listContainsSub rest needle

/-- `strStartsWith s p`: does `s` start with `p`? (model of `s.startsWith p`). -/
def strStartsWith (s p : String) : Bool :=
  listStartsWith s.toList p.toList

/-- `strContains hay needle`: substring occurrence. -/
def strContains (hay needle : String) : Bool :=
  listContainsSub hay.toList needle.toList

/-! ### Data model of the remote Drive API -/

/-- A file handle as returned by `drive.files.list` (the fields the router
actually reads: id, name, mimeType). -/
structure FileHandle where
  id : String
  name : String
  mimeType : String
deriving DecidableEq

/-- The parameters the router passes to `drive.files.list` in the search arm. -/
structure ListParams where
  q : String
  pageSize : Nat
  fields : String
deriving DecidableEq

/-- A stored file: metadata MIME type (possibly unset), raw media bytes, and
the export oracle giving the body `drive.files.export` returns for a requested
export MIME type. -/
structure DriveFile where
  mimeType : Option String
  bytes : List Nat
  exportContent : String → String

/-- The remote Drive service: file lookup by id plus the listing call. A
missing id makes `drive.files.get` reject. -/
structure Drive where
  files : String → Option DriveFile
  list : ListParams → Except String (List FileHandle)

/-- The normalized output of a read: MIME type plus content payload. -/
structure ContentResult where
  mimeType : String
  content : String
deriving DecidableEq

/-- src/index.ts line 71: the guard `file.data.mimeType?.startsWith("application/vnd.google-apps")`
(optional chaining: an unset MIME type is falsy, hence not native). -/
def isNativeGuard : Option String → Bool
  | some m => strStartsWith m "application/vnd.google-apps"
  | none => false

/-- src/index.ts lines 72-91: the switch from a native MIME type to the export
MIME type. -/
def exportMimeType (m : String) : String :=
  if m = "application/vnd.google-apps.document" then "text/markdown"
  else if m = "application/vnd.openxmlformats-officedocument.wordprocessingml.document" then
    "text/markdown"
  else if m = "application/vnd.google-apps.spreadsheet" then "text/csv"
  else if m = "application/vnd.google-apps.presentation" then "text/plain"
  else if m = "application/vnd.google-apps.drawing" then "image/png"
  else "text/plain"

/-- src/index.ts line 109: `file.data.mimeType || "application/octet-stream"`
(JavaScript or-default: an absent or empty MIME type is falsy). -/
def effectiveMime : Option String → String
  | some m => if m = "" then "application/octet-stream" else m
  | none => "application/octet-stream"

/-- src/index.ts lines 63-122: `readFileContent`. Fetch metadata; if the MIME
type is Workspace-native, export at the mapped MIME type; otherwise download
raw bytes, defaulting a falsy MIME type to application/octet-stream, and
return UTF-8 text for text/* and application/json, base64 otherwise. -/
def readFileContent (d : Drive) (fileId : String) : Except String ContentResult :=
  match d.files fileId with
  | none => .error ("File not found: " ++ fileId)
  | some file =>
    if isNativeGuard file.mimeType then
      let em := exportMimeType (file.mimeType.getD "")
      .ok { mimeType := em, content := file.exportContent em }
    else
      let mimeType := effectiveMime file.mimeType
      if strStartsWith mimeType "text/" || mimeType = "application/json" then
        .ok { mimeType := mimeType, content := utf8Decode file.bytes }
      else
        .ok { mimeType := mimeType, content := base64Encode file.bytes }

/-! ### The call-tool router (src/index.ts lines 174-228) -/

/-- A JSON argument value as it arrives in `request.params.arguments`. -/
inductive JsonVal where
  | str (s : String)
  | num (n : Int)
  | bool (b : Bool)
  | null
deriving DecidableEq

/-- The two argument slots the router reads. An absent key is `none`. -/
structure CallToolArgs where
  query : Option JsonVal := none
  file_id : Option JsonVal := none
deriving DecidableEq

structure CallToolRequest where
  name : String
  arguments : CallToolArgs
deriving DecidableEq

/-- JavaScript falsiness of an (optional) argument value, as tested by
`if (!fileId)`. -/
def jsFalsy : Option JsonVal → Bool
  | none => true
  | some .null => true
  | some (.str s) => s = ""
  | some (.num n) => n = 0
  | some (.bool b) => !b

/-- JavaScript string coercion of an argument value. -/
def jsToString : JsonVal → String
  | .str s => s
  | .num n => toString n
  | .bool b => if b then "true" else "false"
  | .null => "null"

/-- A protocol-level failure of the handler: either an explicit
`McpError(InvalidParams, ...)` or any other thrown exception (which the SDK
surfaces as a generic protocol error). -/
inductive ProtocolError where
  | invalidParams (msg : String)
  | thrown (msg : String)
deriving DecidableEq

/-- A tool-level result: one text content item plus the `isError` flag. -/
structure ToolResult where
  text : String
  isError : Bool
deriving DecidableEq

/-- src/index.ts lines 180-184: the listing parameters built in the search arm. -/
def searchParams (userQuery : String) : ListParams :=
  { q := formattedQuery userQuery
    pageSize := 10
    fields := "files(id, name, mimeType, modifiedTime, size)" }

/-- src/index.ts line 187: one line of the search result text. -/
def fileLine (f : FileHandle) : String :=
  f.name ++ " (" ++ f.mimeType ++ ") - ID: " ++ f.id

/-- src/index.ts lines 174-228: the CallToolRequest handler.

* `gdrive_search`: reads `arguments.query`; the code calls `.replace` on it
  with no validation, so a non-string value throws a TypeError (a generic
  protocol error), while a string is escaped, embedded into the filter, and
  the listing result is formatted; a rejected listing propagates.
* `gdrive_read_file`: a falsy `file_id` throws `McpError(InvalidParams)`;
  otherwise `readFileContent` runs under try/catch, errors being downgraded
  to a tool-level result with `isError: true`.
* any other name: `throw new Error("Tool not found")`. -/
def handleCallTool (d : Drive) (req : CallToolRequest) : Except ProtocolError ToolResult :=
  if req.name = "gdrive_search" then
    match req.arguments.query with
    | some (JsonVal.str userQuery) =>
      match d.list (searchParams userQuery) with
      | .ok files =>
        .ok { text := "Found " ++ toString files.length ++ " files:\n" ++
                String.intercalate "\n" (files.map fileLine)
              isError := false }
      | .error e => .error (.thrown e)
    | _ => .error (.thrown "userQuery.replace is not a function")
  else if req.name = "gdrive_read_file" then
    if jsFalsy req.arguments.file_id then
      .error (.invalidParams "File ID is required")
    else
      match readFileContent d (jsToString ((req.arguments.file_id).getD JsonVal.null)) with
      | .ok result => .ok { text := result.content, isError := false }
      | .error msg => .ok { text := "Error reading file: " ++ msg, isError := true }
  else
    .error (.thrown "Tool not found")

/-! ### Semantics of the two candidate filter clauses (for the search claim)

`fullTextContainsSem` is the meaning of the clause the code builds,
`fullText contains Q`. `specFilterSem` is modelled from the spec's words:
"name contains Q or full-text contains Q, and not trashed". -/

structure RemoteFile where
  name : String
  fullText : String
  trashed : Bool
deriving DecidableEq

/-- Meaning of the clause the code constructs: `fullText contains Q`. -/
def fullTextContainsSem (q : String) (f : RemoteFile) : Bool :=
  strContains f.fullText q

/-- Modelled from the spec: the meaning of the claimed clause
"name contains Q or full-text contains Q, and not trashed". -/
def specFilterSem (q : String) (f : RemoteFile) : Bool :=
  (strContains f.name q || strContains f.fullText q) && !f.trashed


/-! ## Helper lemmas: scanner steering, escaping safety, base64 round trip -/

theorem hasUnescapedQuote_cons (c : Char) (rest : List Char) :
    hasUnescapedQuote (c :: rest) =
      if c = bslash then
        (match rest with
          | [] => false
          | _ :: rest2 => hasUnescapedQuote rest2)
      else if c = squote then true
      else hasUnescapedQuote rest := by
  rw [hasUnescapedQuote.eq_def]

theorem hasUnescapedQuote_bslash (c2 : Char) (rest : List Char) :
    hasUnescapedQuote (bslash :: c2 :: rest) = hasUnescapedQuote rest := by
  rw [hasUnescapedQuote_cons, if_pos rfl]

theorem hasUnescapedQuote_other (c : Char) (rest : List Char)
    (hb : c ≠ bslash) (hq : c ≠ squote) :
    hasUnescapedQuote (c :: rest) = hasUnescapedQuote rest := by
  rw [hasUnescapedQuote_cons, if_neg hb, if_neg hq]

theorem escapeList_append (f : Char → List Char) (a b : List Char) :
    escapeList f (a ++ b) = escapeList f a ++ escapeList f b := by
  induction a with
  | nil => rfl
  | cons c rest ih => simp [escapeList, ih]

theorem hasUnescapedQuote_escapeList (l : List Char) :
    hasUnescapedQuote (escapeList escQuote (escapeList escBackslash l)) = false := by
  induction l with
  | nil => rfl
  | cons c rest ih =>
    show hasUnescapedQuote
      (escapeList escQuote (escBackslash c ++ escapeList escBackslash rest)) = false
    rw [escapeList_append]
    by_cases hb : c = bslash
    · subst hb
      have h1 : escapeList escQuote (escBackslash bslash) = [bslash, bslash] := by decide
      rw [h1, List.cons_append, List.cons_append, List.nil_append,
        hasUnescapedQuote_bslash]
      exact ih
    · by_cases hq : c = squote
      · subst hq
        have h1 : escapeList escQuote (escBackslash squote) = [bslash, squote] := by decide
        rw [h1, List.cons_append, List.cons_append, List.nil_append,
          hasUnescapedQuote_bslash]
        exact ih
      · have h1 : escapeList escQuote (escBackslash c) = [c] := by
          simp [escapeList, escBackslash, escQuote, hb, hq]
        rw [h1, List.cons_append, List.nil_append, hasUnescapedQuote_other c _ hb hq]
        exact ih

theorem b64Val_b64Char : ∀ n < 64, b64Val (b64Char n) = n := by decide

theorem b64Char_ne_pad : ∀ n < 64, b64Char n ≠ pad := by decide

theorem base64DecodeList_cons (c1 c2 c3 c4 : Char) (rest : List Char) :
    base64DecodeList (c1 :: c2 :: c3 :: c4 :: rest) =
      if c3 = pad then [b64Val c1 * 4 + b64Val c2 / 16]
      else if c4 = pad then
        [b64Val c1 * 4 + b64Val c2 / 16, b64Val c2 % 16 * 16 + b64Val c3 / 4]
      else
        (b64Val c1 * 4 + b64Val c2 / 16) ::
        (b64Val c2 % 16 * 16 + b64Val c3 / 4) ::
        (b64Val c3 % 4 * 64 + b64Val c4) :: base64DecodeList rest := by
  rw [base64DecodeList.eq_def]

theorem base64DecodeList_encodeList (l : List Nat) (h : ∀ b ∈ l, b < 256) :
    base64DecodeList (base64EncodeList l) = l := by
  induction l using base64EncodeList.induct with
  | case1 => rfl
  | case2 a =>
    have ha : a < 256 := h a (by simp)
    show base64DecodeList [b64Char (a / 4), b64Char (a % 4 * 16), pad, pad] = [a]
    rw [base64DecodeList_cons, if_pos rfl,
      b64Val_b64Char _ (by omega), b64Val_b64Char _ (by omega)]
    have he : a / 4 * 4 + a % 4 * 16 / 16 = a := by omega
    rw [he]
  | case3 a b =>
    have ha : a < 256 := h a (by simp)
    have hb : b < 256 := h b (by simp)
    show base64DecodeList
      [b64Char (a / 4), b64Char (a % 4 * 16 + b / 16), b64Char (b % 16 * 4), pad] = [a, b]
    rw [base64DecodeList_cons, if_neg (b64Char_ne_pad _ (by omega)), if_pos rfl,
      b64Val_b64Char _ (by omega), b64Val_b64Char _ (by omega), b64Val_b64Char _ (by omega)]
    have he1 : a / 4 * 4 + (a % 4 * 16 + b / 16) / 16 = a := by omega
    have he2 : (a % 4 * 16 + b / 16) % 16 * 16 + b % 16 * 4 / 4 = b := by omega
    rw [he1, he2]
  | case4 a b c rest ih =>
    have ha : a < 256 := h a (by simp)
    have hb : b < 256 := h b (by simp)
    have hc : c < 256 := h c (by simp)
    show base64DecodeList
      (b64Char (a / 4) :: b64Char (a % 4 * 16 + b / 16) ::
        b64Char (b % 16 * 4 + c / 64) :: b64Char (c % 64) :: base64EncodeList rest) = _
    rw [base64DecodeList_cons, if_neg (b64Char_ne_pad _ (by omega)),
      if_neg (b64Char_ne_pad _ (by omega)),
      b64Val_b64Char _ (by omega), b64Val_b64Char _ (by omega),
      b64Val_b64Char _ (by omega), b64Val_b64Char _ (by omega)]
    have he1 : a / 4 * 4 + (a % 4 * 16 + b / 16) / 16 = a := by omega
    have he2 : (a % 4 * 16 + b / 16) % 16 * 16 + (b % 16 * 4 + c / 64) / 4 = b := by omega
    have he3 : (b % 16 * 4 + c / 64) % 4 * 64 + c % 64 = c := by omega
    rw [he1, he2, he3, ih (fun x hx => h x (by simp [hx]))]

theorem base64_roundtrip (l : List Nat) (h : ∀ b ∈ l, b < 256) :
    base64Decode (base64Encode l) = l :=
  base64DecodeList_encodeList l h


/-! ## Claims -/

/-! ## Concrete witness data

A small concrete drive: a Workspace spreadsheet, a docx file, a pdf, a file
with no MIME type, and a Workspace drawing; the listing call recognises the
parameters built for the query string "a" and returns a single handle, and
returns an empty page for every other parameter set. -/

def handleA : FileHandle := ⟨"id1", "nm", "text/plain"⟩

def egDrive : Drive :=
  { files := fun fid =>
      if fid = "abc123" then
        some ⟨some "application/vnd.google-apps.spreadsheet", [], fun _ => "a,b\n1,2"⟩
      else if fid = "docx1" then
        some ⟨some "application/vnd.openxmlformats-officedocument.wordprocessingml.document",
          [1, 2, 3], fun _ => "unused"⟩
      else if fid = "pdf1" then
        some ⟨some "application/pdf", [1, 2, 3], fun _ => "unused"⟩
      else if fid = "raw1" then
        some ⟨none, [0, 255], fun _ => "unused"⟩
      else if fid = "draw1" then
        some ⟨some "application/vnd.google-apps.drawing", [137, 80], fun _ => "hello"⟩
      else none
    list := fun p => if p = searchParams "a" then .ok [handleA] else .ok [] }

/-- Discriminator used to state that a router outcome is NOT an
invalid-params protocol error. -/
def isInvalidParamsResult : Except ProtocolError ToolResult → Bool
  | .error (.invalidParams _) => true
  | _ => false

/-! ## C1 -/

/-- C1 counterexample: the filter clause the code constructs for the query
"a" is exactly `fullText contains 'a'`; it mentions neither a name clause nor
a trashed exclusion, and its meaning differs from the claimed clause
"name contains Q or full-text contains Q, and not trashed" on a trashed file
whose full text matches: so the constructed clause is not equivalent to the
claimed one. -/
theorem c1_filter_clause_counterexample :
    formattedQuery "a" = "fullText contains \x27a\x27" ∧
    strContains (formattedQuery "a") "name contains" = false ∧
    strContains (formattedQuery "a") "trashed" = false ∧
    fullTextContainsSem "a" ⟨"x", "apple", true⟩ = true ∧
    specFilterSem "a" ⟨"x", "apple", true⟩ = false :=
  ⟨by decide, by decide, by decide, by decide, by decide⟩

/-- C1 (amended): for every `gdrive_search` call with a string query Q the
router requests the filter clause `fullText contains 'Q-escaped'` — with no
name clause and no trashed exclusion — at most 10 results (pageSize 10) and
the fields {id, name, mimeType, modifiedTime, size}, and formats whatever
file list the remote returns for those parameters. -/
theorem c1_search_request_amended (d : Drive) (req : CallToolRequest) (q : String)
    (hname : req.name = "gdrive_search")
    (hq : req.arguments.query = some (JsonVal.str q)) :
    searchParams q = ⟨"fullText contains \x27" ++ escapedQuery q ++ "\x27", 10,
      "files(id, name, mimeType, modifiedTime, size)"⟩ ∧
    ∀ files, d.list (searchParams q) = .ok files →
      handleCallTool d req = .ok ⟨"Found " ++ toString files.length ++ " files:\n" ++
        String.intercalate "\n" (files.map fileLine), false⟩ := by
  obtain ⟨nm, qv, fv⟩ := req
  dsimp only at hname hq
  subst hname
  subst hq
  refine ⟨rfl, fun files hfiles => ?_⟩
  simp only [handleCallTool, if_pos]
  rw [hfiles]

/-- Witness for `c1_search_request_amended` at the query "a" on `egDrive`. -/
theorem c1_search_request_amended_witness :
    searchParams "a" = ⟨"fullText contains \x27" ++ escapedQuery "a" ++ "\x27", 10,
      "files(id, name, mimeType, modifiedTime, size)"⟩ ∧
    handleCallTool egDrive ⟨"gdrive_search", ⟨some (JsonVal.str "a"), none⟩⟩ =
      .ok ⟨"Found " ++ toString [handleA].length ++ " files:\n" ++
        String.intercalate "\n" ([handleA].map fileLine), false⟩ :=
  ⟨(c1_search_request_amended egDrive ⟨"gdrive_search", ⟨some (JsonVal.str "a"), none⟩⟩
      "a" rfl rfl).1,
   (c1_search_request_amended egDrive ⟨"gdrive_search", ⟨some (JsonVal.str "a"), none⟩⟩
      "a" rfl rfl).2 [handleA] (by decide)⟩

/-! ## C2 -/

/-- C2 counterexample: for a Workspace drawing, `readFileContent` returns the
MIME type image/png — which neither starts with "text/" nor equals
application/json — yet the payload is the export body, not base64: decoding
it does not reproduce the file's bytes, so the claimed invariant fails on the
export path. -/
theorem c2_encoding_counterexample :
    readFileContent egDrive "draw1" = .ok ⟨"image/png", "hello"⟩ ∧
    (strStartsWith "image/png" "text/" || "image/png" = "application/json") = false ∧
    base64Decode "hello" ≠ [137, 80] ∧
    "hello" ≠ base64Encode [137, 80] :=
  ⟨by decide, by decide, by decide, by decide⟩

/-- C2 (amended to the raw-download path, i.e. non-native files): for every
file whose metadata MIME type is not Workspace-native, the payload encoding
is fully determined by the returned MIME type: text/* and application/json
give the UTF-8 decoding of the bytes, and every other returned MIME type
gives base64 of the original bytes, whose decoding reproduces those bytes
exactly. -/
theorem c2_raw_path_encoding (d : Drive) (fid : String) (f : DriveFile)
    (hf : d.files fid = some f) (hnat : isNativeGuard f.mimeType = false)
    (hbytes : ∀ b ∈ f.bytes, b < 256) :
    ∃ r : ContentResult, readFileContent d fid = .ok r ∧
      ((strStartsWith r.mimeType "text/" || r.mimeType = "application/json") = true →
        r.content = utf8Decode f.bytes) ∧
      ((strStartsWith r.mimeType "text/" || r.mimeType = "application/json") = false →
        r.content = base64Encode f.bytes ∧ base64Decode r.content = f.bytes) := by
  simp only [readFileContent, hf]
  rw [if_neg (by rw [hnat]; exact Bool.false_ne_true)]
  by_cases htext : (strStartsWith (effectiveMime f.mimeType) "text/" ||
      effectiveMime f.mimeType = "application/json") = true
  · rw [if_pos htext]
    exact ⟨⟨effectiveMime f.mimeType, utf8Decode f.bytes⟩, rfl, fun _ => rfl,
      fun hfalse => absurd (hfalse ▸ htext) Bool.false_ne_true⟩
  · rw [if_neg htext]
    exact ⟨⟨effectiveMime f.mimeType, base64Encode f.bytes⟩, rfl,
      fun htrue => absurd htrue htext,
      fun _ => ⟨rfl, base64_roundtrip f.bytes hbytes⟩⟩

/-- Witness for `c2_raw_path_encoding` at the pdf file of `egDrive`. -/
theorem c2_raw_path_encoding_witness :
    ∃ r : ContentResult, readFileContent egDrive "pdf1" = .ok r ∧
      ((strStartsWith r.mimeType "text/" || r.mimeType = "application/json") = true →
        r.content = utf8Decode [1, 2, 3]) ∧
      ((strStartsWith r.mimeType "text/" || r.mimeType = "application/json") = false →
        r.content = base64Encode [1, 2, 3] ∧ base64Decode r.content = [1, 2, 3]) :=
  c2_raw_path_encoding egDrive "pdf1" ⟨some "application/pdf", [1, 2, 3], fun _ => "unused"⟩
    rfl (by decide) (by decide)

/-! ## C3 -/

/-- C3: every backslash and single quote of the user query is escaped before
being embedded in the filter clause: scanning the escaped query never hits an
unescaped single quote (so the embedded characters cannot terminate the
quoted clause early), and the query "project's plan" yields a filter clause
containing the escaped text `project\'s plan`. -/
theorem c3_escaping_injection_safe :
    (∀ q : String, hasUnescapedQuote (escapedQuery q).toList = false) ∧
    strContains (formattedQuery "project\x27s plan") "project\\\x27s plan" = true ∧
    formattedQuery "project\x27s plan" = "fullText contains \x27project\\\x27s plan\x27" :=
  ⟨fun q => hasUnescapedQuote_escapeList q.toList, by decide, by decide⟩

/-! ## C4 -/

/-- C4: for every file whose metadata MIME type is Workspace-native, the
result is tagged with exactly the mapped export MIME type (a function of the
native type: document→markdown, spreadsheet→CSV, presentation→plain text,
drawing→PNG, any other native type→plain text) and never with the original
native type. -/
theorem c4_native_export_mapping (d : Drive) (fid : String) (f : DriveFile) (m : String)
    (hf : d.files fid = some f) (hm : f.mimeType = some m)
    (hnat : strStartsWith m "application/vnd.google-apps" = true) :
    readFileContent d fid = .ok ⟨exportMimeType m, f.exportContent (exportMimeType m)⟩ ∧
    exportMimeType m ≠ m ∧
    (exportMimeType m = "text/markdown" ∨ exportMimeType m = "text/csv" ∨
      exportMimeType m = "text/plain" ∨ exportMimeType m = "image/png") ∧
    (m = "application/vnd.google-apps.document" → exportMimeType m = "text/markdown") ∧
    (m = "application/vnd.google-apps.spreadsheet" → exportMimeType m = "text/csv") ∧
    (m = "application/vnd.google-apps.presentation" → exportMimeType m = "text/plain") ∧
    (m = "application/vnd.google-apps.drawing" → exportMimeType m = "image/png") ∧
    (m ≠ "application/vnd.google-apps.document" ∧ m ≠ "application/vnd.google-apps.spreadsheet" ∧
      m ≠ "application/vnd.google-apps.presentation" ∧ m ≠ "application/vnd.google-apps.drawing" →
      exportMimeType m = "text/plain") := by
  have hvals : exportMimeType m = "text/markdown" ∨ exportMimeType m = "text/csv" ∨
      exportMimeType m = "text/plain" ∨ exportMimeType m = "image/png" := by
    unfold exportMimeType
    split_ifs <;> simp
  have hox : m ≠ "application/vnd.openxmlformats-officedocument.wordprocessingml.document" := by
    intro he
    rw [he] at hnat
    exact absurd hnat (by decide)
  refine ⟨?_, ?_, hvals, ?_, ?_, ?_, ?_, ?_⟩
  · simp only [readFileContent, hf]
    rw [if_pos (show isNativeGuard f.mimeType = true by rw [hm]; exact hnat)]
    simp only [hm, Option.getD_some]
  · intro he
    rcases hvals with h | h | h | h <;>
      (rw [he] at h; rw [h] at hnat; exact absurd hnat (by decide))
  · intro he; rw [he]; decide
  · intro he; rw [he]; decide
  · intro he; rw [he]; decide
  · intro he; rw [he]; decide
  · rintro ⟨h1, h2, h3, h4⟩
    unfold exportMimeType
    rw [if_neg h1, if_neg hox, if_neg h2, if_neg h3, if_neg h4]

/-- Witness for `c4_native_export_mapping` at the spreadsheet of `egDrive`
(the spec's own example: a native spreadsheet reads back as text/csv). -/
theorem c4_native_export_mapping_witness :
    readFileContent egDrive "abc123" = .ok ⟨"text/csv", "a,b\n1,2"⟩ ∧
    "text/csv" ≠ "application/vnd.google-apps.spreadsheet" :=
  ⟨((c4_native_export_mapping egDrive "abc123"
      ⟨some "application/vnd.google-apps.spreadsheet", [], fun _ => "a,b\n1,2"⟩
      "application/vnd.google-apps.spreadsheet" rfl rfl (by decide)).1),
   ((c4_native_export_mapping egDrive "abc123"
      ⟨some "application/vnd.google-apps.spreadsheet", [], fun _ => "a,b\n1,2"⟩
      "application/vnd.google-apps.spreadsheet" rfl rfl (by decide)).2.1)⟩

/-! ## C5 -/

/-- C5: for every `gdrive_read_file` call with a present (truthy) file_id,
the router always returns a tool-level result, and when the underlying read
throws, the result has isError=true and text "Error reading file: " followed
by the failure message — the failure never escapes as a protocol-level
error. -/
theorem c5_read_failures_tool_level (d : Drive) (req : CallToolRequest)
    (hname : req.name = "gdrive_read_file")
    (hpresent : jsFalsy req.arguments.file_id = false) :
    (∃ r : ToolResult, handleCallTool d req = .ok r) ∧
    ∀ msg, readFileContent d (jsToString ((req.arguments.file_id).getD JsonVal.null)) =
        .error msg →
      handleCallTool d req = .ok ⟨"Error reading file: " ++ msg, true⟩ := by
  obtain ⟨nm, qv, fv⟩ := req
  dsimp only at hname hpresent ⊢
  subst hname
  simp only [handleCallTool, if_neg (by decide : ¬("gdrive_read_file" = "gdrive_search")),
    if_pos, hpresent, Bool.false_eq_true, if_false]
  constructor
  · cases hr : readFileContent d (jsToString (fv.getD JsonVal.null)) with
    | ok r => exact ⟨⟨r.content, false⟩, rfl⟩
    | error msg => exact ⟨⟨"Error reading file: " ++ msg, true⟩, rfl⟩
  · intro msg hmsg
    rw [hmsg]

/-- Witness for `c5_read_failures_tool_level`: reading a nonexistent id on
`egDrive` yields a tool-level isError result with the underlying message. -/
theorem c5_read_failures_tool_level_witness :
    handleCallTool egDrive ⟨"gdrive_read_file", ⟨none, some (JsonVal.str "nofile")⟩⟩ =
      .ok ⟨"Error reading file: File not found: nofile", true⟩ :=
  (c5_read_failures_tool_level egDrive
      ⟨"gdrive_read_file", ⟨none, some (JsonVal.str "nofile")⟩⟩ rfl (by decide)).2
    "File not found: nofile" (by decide)

/-! ## C6 -/

/-- C6 counterexample: a `gdrive_search` call whose query is the number 5
does fail before any remote call, but with a generic thrown TypeError
(`userQuery.replace is not a function`), not with an invalid-params error:
the search arm performs no validation of `query`. -/
theorem c6_search_validation_counterexample :
    handleCallTool egDrive ⟨"gdrive_search", ⟨some (JsonVal.num 5), none⟩⟩ =
      .error (.thrown "userQuery.replace is not a function") ∧
    isInvalidParamsResult
      (handleCallTool egDrive ⟨"gdrive_search", ⟨some (JsonVal.num 5), none⟩⟩) = false :=
  ⟨by decide, by decide⟩

/-- C6 (amended): a `gdrive_read_file` call with an absent (falsy) file_id
fails with an invalid-params protocol-level error before any remote call;
a `gdrive_search` call whose query is not a string also fails before any
remote call, but with a generic thrown TypeError, not an invalid-params
error. (Both outcomes are independent of the drive `d`, so no remote call
can have been attempted.) -/
theorem c6_param_validation_amended (d : Drive) (req : CallToolRequest) :
    (req.name = "gdrive_read_file" → jsFalsy req.arguments.file_id = true →
      handleCallTool d req = .error (.invalidParams "File ID is required")) ∧
    (req.name = "gdrive_search" → (∀ s, req.arguments.query ≠ some (JsonVal.str s)) →
      handleCallTool d req = .error (.thrown "userQuery.replace is not a function")) := by
  obtain ⟨nm, qv, fv⟩ := req
  dsimp only
  constructor
  · intro hname hfalsy
    subst hname
    simp only [handleCallTool, if_neg (by decide : ¬("gdrive_read_file" = "gdrive_search")),
      if_pos, hfalsy, if_true]
  · intro hname hq
    subst hname
    cases qv with
    | none => rfl
    | some v =>
      cases v with
      | str s => exact absurd rfl (hq s)
      | num n => rfl
      | bool b => rfl
      | null => rfl

/-- Witness for `c6_param_validation_amended`: an absent file_id and a null
query on `egDrive`. -/
theorem c6_param_validation_amended_witness :
    handleCallTool egDrive ⟨"gdrive_read_file", ⟨none, none⟩⟩ =
      .error (.invalidParams "File ID is required") ∧
    handleCallTool egDrive ⟨"gdrive_search", ⟨some JsonVal.null, none⟩⟩ =
      .error (.thrown "userQuery.replace is not a function") :=
  ⟨(c6_param_validation_amended egDrive ⟨"gdrive_read_file", ⟨none, none⟩⟩).1 rfl rfl,
   (c6_param_validation_amended egDrive ⟨"gdrive_search", ⟨some JsonVal.null, none⟩⟩).2 rfl
     (fun _ h => JsonVal.noConfusion (Option.some.inj h))⟩

/-! ## C7 -/

/-- C7: a `gdrive_search` call whose remote listing returns zero files yields
a success result (isError=false) whose text is "Found 0 files:" followed by
an empty list — never an error. -/
theorem c7_zero_results_success (d : Drive) (req : CallToolRequest) (q : String)
    (hname : req.name = "gdrive_search")
    (hq : req.arguments.query = some (JsonVal.str q))
    (hlist : d.list (searchParams q) = .ok []) :
    handleCallTool d req = .ok ⟨"Found 0 files:\n", false⟩ := by
  obtain ⟨nm, qv, fv⟩ := req
  dsimp only at hname hq
  subst hname
  subst hq
  simp only [handleCallTool, if_pos]
  rw [hlist]
  rfl

/-- Witness for `c7_zero_results_success`: the query "zzz" matches nothing on
`egDrive`. -/
theorem c7_zero_results_success_witness :
    handleCallTool egDrive ⟨"gdrive_search", ⟨some (JsonVal.str "zzz"), none⟩⟩ =
      .ok ⟨"Found 0 files:\n", false⟩ :=
  c7_zero_results_success egDrive ⟨"gdrive_search", ⟨some (JsonVal.str "zzz"), none⟩⟩
    "zzz" rfl rfl (by decide)

/-! ## C8 -/

/-- C8: on the raw-download path, a missing (or empty, hence falsy) metadata
MIME type defaults to application/octet-stream and the content is
base64-encoded. -/
theorem c8_missing_mime_octet_stream (d : Drive) (fid : String) (f : DriveFile)
    (hf : d.files fid = some f) (hm : f.mimeType = none ∨ f.mimeType = some "") :
    readFileContent d fid = .ok ⟨"application/octet-stream", base64Encode f.bytes⟩ := by
  have hng : isNativeGuard f.mimeType = false := by
    rcases hm with h | h <;> rw [h] <;> decide
  have heff : effectiveMime f.mimeType = "application/octet-stream" := by
    rcases hm with h | h <;> rw [h] <;> decide
  simp only [readFileContent, hf]
  rw [if_neg (by rw [hng]; exact Bool.false_ne_true), heff]
  rw [if_neg (by decide :
    ¬((strStartsWith "application/octet-stream" "text/" ||
        "application/octet-stream" = "application/json") = true))]

/-- Witness for `c8_missing_mime_octet_stream` at the MIME-less file of
`egDrive`. -/
theorem c8_missing_mime_octet_stream_witness :
    readFileContent egDrive "raw1" = .ok ⟨"application/octet-stream", base64Encode [0, 255]⟩ :=
  c8_missing_mime_octet_stream egDrive "raw1" ⟨none, [0, 255], fun _ => "unused"⟩
    rfl (Or.inl rfl)

/-! ## C9 -/

/-- C9: a call-tool request whose name is neither gdrive_search nor
gdrive_read_file makes the router throw "Tool not found" — a protocol-level
error, never a tool result. -/
theorem c9_unknown_tool_protocol_error (d : Drive) (req : CallToolRequest)
    (h1 : req.name ≠ "gdrive_search") (h2 : req.name ≠ "gdrive_read_file") :
    handleCallTool d req = .error (.thrown "Tool not found") := by
  unfold handleCallTool
  rw [if_neg h1, if_neg h2]

/-- Witness for `c9_unknown_tool_protocol_error` at the tool name "foo". -/
theorem c9_unknown_tool_protocol_error_witness :
    handleCallTool egDrive ⟨"foo", ⟨none, none⟩⟩ = .error (.thrown "Tool not found") :=
  c9_unknown_tool_protocol_error egDrive ⟨"foo", ⟨none, none⟩⟩ (by decide) (by decide)

/-! ## C10 -/

/-- C10: the export-switch case for the openxml wordprocessing MIME type is
unreachable: that string does not start with "application/vnd.google-apps",
so a file carrying it takes the raw-download path (here: base64, since the
type is not text-like), never the export path. -/
theorem c10_openxml_case_unreachable (d : Drive) (fid : String) (f : DriveFile)
    (hf : d.files fid = some f)
    (hm : f.mimeType =
      some "application/vnd.openxmlformats-officedocument.wordprocessingml.document") :
    strStartsWith "application/vnd.openxmlformats-officedocument.wordprocessingml.document"
      "application/vnd.google-apps" = false ∧
    readFileContent d fid =
      .ok ⟨"application/vnd.openxmlformats-officedocument.wordprocessingml.document",
        base64Encode f.bytes⟩ := by
  refine ⟨by decide, ?_⟩
  simp only [readFileContent, hf, hm]
  rw [if_neg (by decide)]
  rw [if_neg (by decide)]
  rfl

/-- Witness for `c10_openxml_case_unreachable` at the docx file of `egDrive`. -/
theorem c10_openxml_case_unreachable_witness :
    strStartsWith "application/vnd.openxmlformats-officedocument.wordprocessingml.document"
      "application/vnd.google-apps" = false ∧
    readFileContent egDrive "docx1" =
      .ok ⟨"application/vnd.openxmlformats-officedocument.wordprocessingml.document",
        base64Encode [1, 2, 3]⟩ :=
  c10_openxml_case_unreachable egDrive "docx1"
    ⟨some "application/vnd.openxmlformats-officedocument.wordprocessingml.document",
      [1, 2, 3], fun _ => "unused"⟩ rfl rfl

end GDrive
